import Mathlib

/-!
Verification of the ctos-data-loader repository (src/loader.py, src/utils.py).

This file shallow-embeds the parts of the program that the claims are about:

* the deterministic identity scheme `get_uuid_for_node` (utils.py:25-40),
  including a full executable model of SHA-1 and of Python's
  `uuid.uuid5` / `str(UUID)` construction (RFC 4122 version-5 UUIDs),
* the string helpers `removeTrailingSlash` (utils.py:43-47) and
  `is_parent_pointer` (utils.py:49-50),
* `check_schema_files` (utils.py:136-145), `backup_neo4j`'s observable
  success/failure interface (utils.py:96-130),
* the control flow of `main` and `confirm_wipe_db` (loader.py:17-115),
  with the program's external effects recorded as an ordered trace.

Machine integers do not occur: Python integers are unbounded and SHA-1 is
modelled on `Nat` with explicit `% 2^32` where the algorithm truncates.
-/

/-! ### 32-bit word arithmetic on `Nat` -/

/-- Truncate to a 32-bit word, `n mod 2^32`. -/
def w32 (n : Nat) : Nat := n % 4294967296

/-- Rotate a 32-bit word left by `b` bits. -/
def rotl32 (b n : Nat) : Nat := ((n <<< b) % 4294967296) ||| (n >>> (32 - b))

/-- Big-endian byte rendering of `n` on exactly `k` bytes. -/
def toBytesBE (k n : Nat) : List Nat :=
  (List.range k).map (fun i => n / 2 ^ (8 * (k - 1 - i)) % 256)

/-- UTF-8 encoding of one Unicode scalar value (Python `str.encode('utf-8')`
acts on scalar values the same way). -/
def utf8EncodeChar (c : Char) : List Nat :=
  let n := c.toNat
  if n < 128 then [n]
  else if n < 2048 then [192 + n / 64, 128 + n % 64]
  else if n < 65536 then [224 + n / 4096, 128 + n / 64 % 64, 128 + n % 64]
  else [240 + n / 262144, 128 + n / 4096 % 64, 128 + n / 64 % 64, 128 + n % 64]

/-- UTF-8 encoding of a string as a byte list. -/
def utf8Encode (s : String) : List Nat := (s.data.map utf8EncodeChar).flatten

/-! ### SHA-1 (FIPS 180-4), as used by Python's `uuid.uuid5` -/

/-- SHA-1 round function `f_t`. -/
def sha1F (t b c d : Nat) : Nat :=
  if t < 20 then (b &&& c) ||| ((b ^^^ 4294967295) &&& d)
  else if t < 40 then b ^^^ c ^^^ d
  else if t < 60 then (b &&& c) ||| (b &&& d) ||| (c &&& d)
  else b ^^^ c ^^^ d

/-- SHA-1 round constant `K_t`. -/
def sha1K (t : Nat) : Nat :=
  if t < 20 then 0x5a827999
  else if t < 40 then 0x6ed9eba1
  else if t < 60 then 0x8f1bbcdc
  else 0xca62c1d6

/-- Number of zero padding bytes for a message of `len` bytes: total length
after appending `0x80`, the zeros and the 8-byte length is a multiple of 64. -/
def sha1PadZeros (len : Nat) : Nat := (119 - len % 64) % 64

/-- SHA-1 message padding. -/
def sha1Pad (msg : List Nat) : List Nat :=
  msg ++ 128 :: List.replicate (sha1PadZeros msg.length) 0 ++ toBytesBE 8 (8 * msg.length)

/-- One big-endian 32-bit word from (up to) four bytes. -/
def bytesToWordBE (bs : List Nat) : Nat := bs.foldl (fun a b => a * 256 + b) 0

/-- The sixteen initial schedule words of one 64-byte chunk. -/
def chunkWords (chunk : List Nat) : List Nat :=
  (List.range 16).map (fun i => bytesToWordBE ((chunk.drop (4 * i)).take 4))

/-- Extend the message schedule by one word:
`W_t = ROTL1 (W_{t-3} xor W_{t-8} xor W_{t-14} xor W_{t-16})`. -/
def sha1ExpandStep (ws : List Nat) : List Nat :=
  let n := ws.length
  ws ++ [rotl32 1 (ws.getD (n - 3) 0 ^^^ ws.getD (n - 8) 0 ^^^
                   ws.getD (n - 14) 0 ^^^ ws.getD (n - 16) 0)]

/-- Iterate a function `n` times. -/
def iterateFn (f : α → α) : Nat → α → α
  | 0, a => a
  | n + 1, a => iterateFn f n (f a)

/-- One SHA-1 compression round on the state `(a, b, c, d, e)`. -/
def sha1Round (ws : List Nat) (s : Nat × Nat × Nat × Nat × Nat) (t : Nat) :
    Nat × Nat × Nat × Nat × Nat :=
  let (a, b, c, d, e) := s
  (w32 (rotl32 5 a + sha1F t b c d + e + sha1K t + ws.getD t 0), a, rotl32 30 b, c, d)

/-- The five SHA-1 hash words. -/
structure Sha1State where
  h0 : Nat
  h1 : Nat
  h2 : Nat
  h3 : Nat
  h4 : Nat
deriving Repr, DecidableEq

/-- The SHA-1 initial hash value. -/
def sha1Init : Sha1State := ⟨0x67452301, 0xefcdab89, 0x98badcfe, 0x10325476, 0xc3d2e1f0⟩

/-- Process one 64-byte chunk. -/
def sha1Chunk (st : Sha1State) (chunk : List Nat) : Sha1State :=
  let ws := iterateFn sha1ExpandStep 64 (chunkWords chunk)
  let s := (List.range 80).foldl (sha1Round ws) (st.h0, st.h1, st.h2, st.h3, st.h4)
  ⟨w32 (st.h0 + s.1), w32 (st.h1 + s.2.1), w32 (st.h2 + s.2.2.1),
   w32 (st.h3 + s.2.2.2.1), w32 (st.h4 + s.2.2.2.2)⟩

/-- Split a byte list into 64-byte chunks (the fuel is an upper bound on the
number of chunks; the padded length is positive and a multiple of 64). -/
def splitChunks : Nat → List Nat → List (List Nat)
  | 0, _ => []
  | _ + 1, [] => []
  | n + 1, l => l.take 64 :: splitChunks n (l.drop 64)

/-- SHA-1 digest of a byte list, as the big-endian 160-bit natural number. -/
def sha1Nat (msg : List Nat) : Nat :=
  let padded := sha1Pad msg
  let st := (splitChunks padded.length padded).foldl sha1Chunk sha1Init
  st.h0 * 2 ^ 128 + st.h1 * 2 ^ 96 + st.h2 * 2 ^ 64 + st.h3 * 2 ^ 32 + st.h4

/-! ### Version-5 UUIDs (Python `uuid.uuid5`, `uuid.NAMESPACE_URL`, `str(UUID)`) -/

/-- `uuid.NAMESPACE_URL = UUID('6ba7b811-9dad-11d1-80b4-00c04fd430c8')` as an integer. -/
def UUID_NAMESPACE_URL : Nat := 0x6ba7b8119dad11d180b400c04fd430c8

/-- All 128 bits set; Python's `int & ~mask` on a value `< 2^128` equals
`int &&& (MASK128 ^^^ mask)`. -/
def MASK128 : Nat := 2 ^ 128 - 1

/-- The variant/version fixup performed by `uuid.UUID(bytes=..., version=5)`:
clear and set the RFC 4122 variant bits, then the version nibble. -/
def uuidSetVariantVersion (x : Nat) : Nat :=
  let x1 := (x &&& (MASK128 ^^^ (0xc000 <<< 48))) ||| (0x8000 <<< 48)
  (x1 &&& (MASK128 ^^^ (0xf000 <<< 64))) ||| (5 <<< 76)

/-- `uuid.uuid5(namespace, name)` as an integer: SHA-1 of the namespace's
16 big-endian bytes followed by the UTF-8 bytes of `name`, truncated to the
first 16 digest bytes (the high 128 bits of the 160-bit digest), with the
variant and version bits fixed up. -/
def uuid5int (namespaceInt : Nat) (name : String) : Nat :=
  uuidSetVariantVersion (sha1Nat (toBytesBE 16 namespaceInt ++ utf8Encode name) >>> 32)

/-- Lowercase hexadecimal digit. -/
def hexDigitChar (n : Nat) : Char := if n < 10 then Char.ofNat (48 + n) else Char.ofNat (87 + n)

/-- Exactly `k` lowercase hex digits of `n`, most significant first
(Python `'%032x' % n` for `k = 32`). -/
def toHexDigits : Nat → Nat → List Char
  | _, 0 => []
  | n, k + 1 => toHexDigits (n / 16) k ++ [hexDigitChar (n % 16)]

/-- `str(uuid.UUID(int=n))`: 32 hex digits in 8-4-4-4-12 groups. -/
def uuidToString (n : Nat) : String :=
  let h := toHexDigits n 32
  ⟨h.take 8 ++ '-' :: (h.drop 8).take 4 ++ '-' :: (h.drop 12).take 4 ++
   '-' :: (h.drop 16).take 4 ++ '-' :: h.drop 20⟩

/-! ### `get_uuid_for_node` (utils.py:25-40)

`ICDC_DOMAIN` is read from the configuration file at startup
(utils.py:172); the embedding takes it as the explicit first argument. -/

/-- utils.py:25-40.  `icdc_base_uuid = uuid5(NAMESPACE_URL, ICDC_DOMAIN)`;
`type_uuid = uuid5(icdc_base_uuid, node_type)`;
`node_uuid = uuid5(type_uuid, signature)`; returns `str(node_uuid)`. -/
def get_uuid_for_node (icdc_domain node_type signature : String) : String :=
  let icdc_base_uuid := uuid5int UUID_NAMESPACE_URL icdc_domain
  let type_uuid := uuid5int icdc_base_uuid node_type
  let node_uuid := uuid5int type_uuid signature
  uuidToString node_uuid

/-! ### Bounds: SHA-1 digests are 160-bit, uuid5 integers are 128-bit -/

/-- All five hash words fit in 32 bits. -/
def Sha1State.Bounded (st : Sha1State) : Prop :=
  st.h0 < 4294967296 ∧ st.h1 < 4294967296 ∧ st.h2 < 4294967296 ∧
  st.h3 < 4294967296 ∧ st.h4 < 4294967296

/-! ### The hex rendering `uuidToString` is injective below `2 ^ 128` -/

/-- Value of a lowercase hex digit. -/
def hexVal (c : Char) : Nat := if c.toNat ≥ 97 then c.toNat - 87 else c.toNat - 48

/-- Big-endian hex decoding. -/
def fromHexDigits (l : List Char) : Nat := l.foldl (fun a c => a * 16 + hexVal c) 0

/-- Decode the hyphenated hex form back to the integer. -/
def uuidUnstring (s : String) : Nat := fromHexDigits (s.data.filter (fun c => c != '-'))

/-! ### Claims C1-C3: the Identity Assigner -/

/-- The node id exactly as the claim describes it: three nested version-5
UUID derivations — a base UUID from `uuid5(NAMESPACE_URL, domain)`, a
per-type UUID from `uuid5(base, t)`, the final node UUID from
`uuid5(per-type, s)` — returned as the string form of the final UUID. -/
def claimNodeId (icdc_domain node_type signature : String) : String :=
  uuidToString (uuid5int (uuid5int (uuid5int UUID_NAMESPACE_URL icdc_domain) node_type) signature)

/-! ### `is_parent_pointer` (utils.py:49-50) and claim C4 -/

/-- Model of the regex character class `\w` (word character): letters, digits
and underscore.  Python's default class is Unicode-aware; the claim's
"word character" and the code's `\w` are the same class, and the equivalence
below does not depend on which concrete class is chosen. -/
def wordChar (c : Char) : Bool := c.isAlphanum || c == '_'

/-- utils.py:49-50: `re.fullmatch(r'\w+\.\w+', field_name) is not None`.
`\w` never matches `'.'`, so in any full match the first `\w+` group is
exactly the maximal word-character prefix; the regex therefore compiles to:
take the maximal word prefix, require it nonempty, require a literal dot,
require the nonempty remainder to consist of word characters. -/
def is_parent_pointer (field_name : String) : Bool :=
  match field_name.data.dropWhile wordChar with
  | '.' :: b => !(field_name.data.takeWhile wordChar).isEmpty && !b.isEmpty && b.all wordChar
  | _ => false

/-- The claim's pattern "word.word": the whole string is one or more word
characters, followed by exactly one dot, followed by one or more word
characters. -/
def claimWordDotWord (s : String) : Prop :=
  ∃ a b : List Char, s.data = a ++ '.' :: b ∧ a ≠ [] ∧ b ≠ [] ∧
    (∀ c ∈ a, wordChar c = true) ∧ (∀ c ∈ b, wordChar c = true)

/-! ### `removeTrailingSlash` (utils.py:43-47) and claim C9 -/

/-- Python `uri.endswith('/')`. -/
def endsWithSlash (uri : String) : Bool :=
  match uri.data.getLast? with
  | some '/' => true
  | _ => false

/-- utils.py:43-47.  When the string ends in `'/'`, `re.sub('/+$', '', uri)`
is applied.  A string ending in `'/'` has no trailing newline, so the anchor
`$` only matches at the very end and the substitution removes exactly the
maximal run of trailing slashes; otherwise the string is returned unchanged. -/
def removeTrailingSlash (uri : String) : String :=
  if endsWithSlash uri then ⟨(uri.data.reverse.dropWhile (fun c => c == '/')).reverse⟩
  else uri

/-- The claim's description: `u` with every trailing `'/'` character removed
(and nothing else). -/
def claimDropAllTrailingSlashes (u : String) : String :=
  ⟨(u.data.reverse.dropWhile (fun c => c == '/')).reverse⟩

/-! ### `check_schema_files` (utils.py:136-145), `confirm_wipe_db`
(loader.py:111-115) and the Python string helpers they use -/

/-- utils.py:136-145.  An empty schema list (Python falsy) fails; otherwise
every path must satisfy `os.path.isfile` (supplied as the environment
predicate `isFile`); the loop returns `False` at the first non-file, which is
exactly `List.all`. -/
def check_schema_files (schemas : List String) (isFile : String → Bool) : Bool :=
  if schemas.isEmpty then false
  else schemas.all isFile

/-- The whitespace class of Python `str.strip()` (ASCII fragment: space,
tab, newline, carriage return, vertical tab, form feed). -/
def pySpace (c : Char) : Bool :=
  List.contains [32, 9, 10, 13, 11, 12] c.toNat

/-- Python `str.strip()`: remove leading and trailing whitespace. -/
def pyStrip (s : String) : String :=
  ⟨((s.data.dropWhile pySpace).reverse.dropWhile pySpace).reverse⟩

/-- Python `str.lower()` on one character (ASCII fragment). -/
def pyLowerChar (c : Char) : Char :=
  if 'A' ≤ c ∧ c ≤ 'Z' then Char.ofNat (c.toNat + 32) else c

/-- Python `str.lower()`. -/
def pyLower (s : String) : String := ⟨s.data.map pyLowerChar⟩

/-- loader.py:111-115: prompt, read a line, and proceed only when the reply,
stripped and lowercased, is exactly `"yes"`.  The read line is the `userInput`
argument. -/
def confirm_wipe_db (userInput : String) : Bool :=
  pyLower (pyStrip userInput) == "yes"

/-! ### The `main` control flow of loader.py, with effects as a trace -/

/-- The externally visible operations of one run, in program order. -/
inductive Effect where
  /-- `os.makedirs(directory)` (loader.py:39). -/
  | makeDirs
  /-- `bucket.download_files_in_folder(...)` (loader.py:55). -/
  | s3Download
  /-- the `backup_neo4j` invocation (loader.py:85, utils.py:96-130). -/
  | backup
  /-- `ICDC_Schema(args.schema)` construction, i.e. schema parsing (loader.py:89). -/
  | buildSchema
  /-- `GraphDatabase.driver(uri, auth=...)` — the database session (loader.py:92). -/
  | createDriver
  /-- the destructive wipe of the whole store (inside `DataLoader.load`). -/
  | wipe
  /-- one node/relationship create, update or delete issued against the store. -/
  | storeOp
  /-- the Load Engine's committing phase is engaged. -/
  | loadEngine
  /-- `driver.close()` (loader.py:101). -/
  | closeDriver
deriving Repr, DecidableEq

/-- How the run ended: `sys.exit(code)` (a bare `sys.exit()` has status 0), or
`main` returned normally. -/
inductive Outcome where
  | exited (code : Nat)
  | completed
deriving Repr, DecidableEq

/-- The observable result of one invocation. -/
structure RunResult where
  trace : List Effect
  outcome : Outcome
deriving Repr, DecidableEq

/-- The parsed command line (loader.py:18-33).  `schema` is `-s` (append,
required), the booleans are the `store_true` flags, `mode` is `-m`. -/
structure Args where
  uri : Option String
  user : Option String
  password : Option String
  schema : List String
  cheatMode : Bool
  dryRun : Bool
  wipeDb : Bool
  noBackup : Bool
  maxViolations : Nat
  bucket : Option String
  s3Folder : Option String
  mode : String
  dir : String

/-- The run's external environment: results of filesystem, network and
console interactions, fixed for one invocation. -/
structure Env where
  /-- `os.path.exists(directory)` (loader.py:38). -/
  dirExists : Bool
  /-- `glob.glob(directory + '/*')` (loader.py:41). -/
  dirContents : List String
  /-- whether `bucket.download_files_in_folder(...)` succeeds (loader.py:55). -/
  s3DownloadOk : Bool
  /-- `os.path.isdir(directory)` (loader.py:52 and 59). -/
  isDir : Bool
  /-- `os.environ['NEO_PASSWORD']` when set (loader.py:68-72). -/
  pswdEnv : Option String
  /-- `os.path.isfile` on schema paths (utils.py:142). -/
  isFile : String → Bool
  /-- `glob.glob(directory + '/*.txt')` (loader.py:79). -/
  txtFiles : List String
  /-- whether the `neo4j-admin` subprocess calls in `backup_neo4j` succeed
  (utils.py:96-130). -/
  backupOk : Bool
  /-- the line read by `input()` in `confirm_wipe_db` (loader.py:113). -/
  confirmInput : String

/-- utils.py:96-130: on success returns the restore-command text, which by
construction starts with a fixed nonempty header (utils.py:98); when a
subprocess invocation raises, the exception is logged and Python `False` is
returned, modelled as `none`.  The caller only tests truthiness
(loader.py:86), and a successful return is never the empty string. -/
def backup_neo4j (backupOk : Bool) (name : String) : Option String :=
  if backupOk then
    some ("To restore DB from backup (to remove any changes caused by current data loading, run following commands:\n"
          ++ name)
  else none

/-- Modelled from the spec: `DataLoader.load` (class `DataLoader` of
data_loader.py, which is not under src/).  Spec 4.4: "A dry-run flag runs
the Validator and stops before invoking the Load Engine, regardless of
outcome", and validation "is read-only over in-memory Records and requires
no external resource", so a dry run contributes no effects.  Spec 4.5: the
optional wipe step "removes the entire store's contents before any file is
processed", then files are processed one at a time, each applying
node/relationship operations against the store. -/
def dataLoader_load (dryRun wipeDb : Bool) (fileList : List String) : List Effect :=
  if dryRun then []
  else
    Effect.loadEngine ::
      ((if wipeDb then [Effect.wipe] else []) ++ fileList.map (fun _ => Effect.storeOp))

/-- loader.py:89-103: build the schema, open the driver unless dry-run, ask
for wipe confirmation when `--wipe-db` was given (a refused confirmation is
`sys.exit()`, status 0), run `DataLoader.load`, close the driver if one was
opened.  (The trailing `log.info(restore_cmd)` of loader.py:102-103 only
logs.) -/
def mainLoadPhase (args : Args) (env : Env) (tr : List Effect) : RunResult :=
  let tr1 := tr ++ [Effect.buildSchema]
  let tr2 := if args.dryRun then tr1 else tr1 ++ [Effect.createDriver]
  if args.wipeDb = true ∧ confirm_wipe_db env.confirmInput = false then
    { trace := tr2, outcome := Outcome.exited 0 }
  else
    let tr3 := tr2 ++ dataLoader_load args.dryRun args.wipeDb env.txtFiles
    { trace := if args.dryRun then tr3 else tr3 ++ [Effect.closeDriver],
      outcome := Outcome.completed }

/-- loader.py:78-105: glob the data directory; with no `*.txt` files just log
"No files to load." and return; otherwise take a backup first unless
`--no-backup` or `--dry-run` was given, aborting with status 1 when
`backup_neo4j` returns a falsy value, and continue into the load phase. -/
def mainAfterChecks (args : Args) (env : Env) (tr : List Effect) : RunResult :=
  if env.txtFiles.isEmpty then
    { trace := tr, outcome := Outcome.completed }
  else
    if args.noBackup = false ∧ args.dryRun = false then
      match backup_neo4j env.backupOk "backup" with
      | none => { trace := tr ++ [Effect.backup], outcome := Outcome.exited 1 }
      | some _ => mainLoadPhase args env (tr ++ [Effect.backup])
    else mainLoadPhase args env tr

/-- loader.py:59-76: the directory, password and schema-file checks, each a
`sys.exit(1)` on failure.  (The `uri` normalisation of loader.py:63-64 and
the user default of line 73 have no external effect.) -/
def mainChecks (args : Args) (env : Env) (tr : List Effect) : RunResult :=
  if env.isDir = false then { trace := tr, outcome := Outcome.exited 1 }
  else if args.password.isNone ∧ env.pswdEnv.isNone then
    { trace := tr, outcome := Outcome.exited 1 }
  else if check_schema_files args.schema env.isFile = false then
    { trace := tr, outcome := Outcome.exited 1 }
  else mainAfterChecks args env tr

/-- loader.py:47-57: when an S3 folder is requested, a bucket name and a
local directory are required, and the files are downloaded before anything
else happens. -/
def mainS3Download (args : Args) (env : Env) (tr : List Effect) : RunResult :=
  if args.s3Folder.isSome then
    if args.bucket.isNone then { trace := tr, outcome := Outcome.exited 1 }
    else if env.isDir = false then { trace := tr, outcome := Outcome.exited 1 }
    else if env.s3DownloadOk = false then
      { trace := tr ++ [Effect.s3Download], outcome := Outcome.exited 1 }
    else mainChecks args env (tr ++ [Effect.s3Download])
  else mainChecks args env tr

/-- loader.py:17-105, `main()` (the name `main` is reserved in Lean, hence
`loader_main`).  Lines 37-44 prepare the local directory when an S3 folder is
given: create it when absent, refuse (status 1) when it exists and is
non-empty.  The `ServiceUnavailable` handler of lines 107-109 only logs; it
can at most truncate the trace after the point where the connection fails and
is not modelled. -/
def loader_main (args : Args) (env : Env) : RunResult :=
  if args.s3Folder.isSome ∧ env.dirExists = false then
    mainS3Download args env [Effect.makeDirs]
  else if args.s3Folder.isSome ∧ env.dirContents.isEmpty = false then
    { trace := [], outcome := Outcome.exited 1 }
  else
    mainS3Download args env []

/-- Scanning the trace from the left, `g` is met before any element of `es`
(or no element of `es` ever occurs). -/
def occursBefore (g : Effect) (es : List Effect) : List Effect → Bool
  | [] => true
  | e :: tr => if e = g then true else if e ∈ es then false else occursBefore g es tr

/-! ### Concrete inputs for the counterexample and the witnesses -/

/-- A well-formed baseline command line. -/
def wArgs : Args :=
  { uri := none, user := none, password := some "secret", schema := ["icdc-model.yml"],
    cheatMode := false, dryRun := false, wipeDb := false, noBackup := false,
    maxViolations := 10, bucket := none, s3Folder := none, mode := "upsert", dir := "data" }

/-- A well-formed baseline environment. -/
def wEnv : Env :=
  { dirExists := true, dirContents := [], s3DownloadOk := true, isDir := true,
    pswdEnv := none, isFile := fun _ => true, txtFiles := ["data/case.txt"],
    backupOk := true, confirmInput := "yes" }

theorem w32_lt (n : Nat) : w32 n < 4294967296 := Nat.mod_lt _ (by norm_num)

theorem sha1Chunk_bounded (st : Sha1State) (c : List Nat) : (sha1Chunk st c).Bounded := by
  unfold Sha1State.Bounded
  simp only [sha1Chunk]
  exact ⟨w32_lt _, w32_lt _, w32_lt _, w32_lt _, w32_lt _⟩

theorem foldl_sha1Chunk_bounded (cs : List (List Nat)) (st : Sha1State) (h : st.Bounded) :
    (cs.foldl sha1Chunk st).Bounded := by
  induction cs generalizing st with
  | nil => exact h
  | cons c cs ih =>
      rw [List.foldl_cons]
      exact ih _ (sha1Chunk_bounded _ _)

theorem sha1Init_bounded : sha1Init.Bounded := by
  unfold Sha1State.Bounded sha1Init
  norm_num

theorem sha1Nat_lt (msg : List Nat) : sha1Nat msg < 2 ^ 160 := by
  have hb := foldl_sha1Chunk_bounded
    (splitChunks (sha1Pad msg).length (sha1Pad msg)) sha1Init sha1Init_bounded
  obtain ⟨b0, b1, b2, b3, b4⟩ := hb
  simp only [sha1Nat]
  have h128 : (2 : Nat) ^ 128 = 340282366920938463463374607431768211456 := by norm_num
  have h96 : (2 : Nat) ^ 96 = 79228162514264337593543950336 := by norm_num
  have h64 : (2 : Nat) ^ 64 = 18446744073709551616 := by norm_num
  have h32 : (2 : Nat) ^ 32 = 4294967296 := by norm_num
  have h160 : (2 : Nat) ^ 160 = 1461501637330902918203684832716283019655932542976 := by norm_num
  rw [h128, h96, h64, h32, h160]
  omega

theorem lor_lt_pow {x y n : Nat} (hx : x < 2 ^ n) (hy : y < 2 ^ n) : x ||| y < 2 ^ n :=
  Nat.bitwise_lt hx hy

theorem land_lt_pow {x y n : Nat} (hx : x < 2 ^ n) (hy : y < 2 ^ n) : x &&& y < 2 ^ n :=
  Nat.bitwise_lt hx hy

theorem uuidSetVariantVersion_lt {x : Nat} (hx : x < 2 ^ 128) :
    uuidSetVariantVersion x < 2 ^ 128 := by
  unfold uuidSetVariantVersion
  have hm1 : MASK128 ^^^ (0xc000 <<< 48) < 2 ^ 128 := by decide
  have hm2 : MASK128 ^^^ (0xf000 <<< 64) < 2 ^ 128 := by decide
  have hv : (0x8000 <<< 48) < 2 ^ 128 := by decide
  have hver : (5 <<< 76) < 2 ^ 128 := by decide
  exact lor_lt_pow (land_lt_pow (lor_lt_pow (land_lt_pow hx hm1) hv) hm2) hver

theorem uuid5int_lt (ns : Nat) (name : String) : uuid5int ns name < 2 ^ 128 := by
  unfold uuid5int
  apply uuidSetVariantVersion_lt
  rw [Nat.shiftRight_eq_div_pow]
  have h := sha1Nat_lt (toBytesBE 16 ns ++ utf8Encode name)
  have : (2 : Nat) ^ 160 = 2 ^ 128 * 2 ^ 32 := by norm_num
  exact Nat.div_lt_of_lt_mul (this ▸ h)

theorem hexVal_hexDigitChar : ∀ m < 16, hexVal (hexDigitChar m) = m := by decide

theorem hexDigitChar_ne_dash : ∀ m < 16, hexDigitChar m ≠ '-' := by decide

theorem toHexDigits_length (k : Nat) : ∀ n, (toHexDigits n k).length = k := by
  induction k with
  | zero => intro n; rfl
  | succ k ih => intro n; simp [toHexDigits, ih]

theorem toHexDigits_ne_dash (k : Nat) : ∀ n, ∀ c ∈ toHexDigits n k, c ≠ '-' := by
  induction k with
  | zero => intro n c hc; simp [toHexDigits] at hc
  | succ k ih =>
      intro n c hc
      simp only [toHexDigits, List.mem_append, List.mem_singleton] at hc
      rcases hc with hc | hc
      · exact ih _ c hc
      · exact hc ▸ hexDigitChar_ne_dash _ (Nat.mod_lt _ (by norm_num))

theorem fromHexDigits_toHexDigits (k : Nat) : ∀ n, fromHexDigits (toHexDigits n k) = n % 16 ^ k := by
  induction k with
  | zero => intro n; simp [toHexDigits, fromHexDigits, Nat.mod_one]
  | succ k ih =>
      intro n
      have hfold : fromHexDigits (toHexDigits n (k + 1)) =
          fromHexDigits (toHexDigits (n / 16) k) * 16 + hexVal (hexDigitChar (n % 16)) := by
        simp [toHexDigits, fromHexDigits, List.foldl_append]
      rw [hfold, ih, hexVal_hexDigitChar _ (Nat.mod_lt _ (by norm_num))]
      -- (n / 16 % 16 ^ k) * 16 + n % 16 = n % 16 ^ (k + 1)
      have hM : (0 : Nat) < 16 ^ k := Nat.pos_pow_of_pos _ (by norm_num)
      have hsplit : n = 16 ^ (k + 1) * (n / 16 / 16 ^ k) + ((n / 16 % 16 ^ k) * 16 + n % 16) := by
        have h1 : n / 16 = 16 ^ k * (n / 16 / 16 ^ k) + n / 16 % 16 ^ k :=
          (Nat.div_add_mod _ _).symm
        have h2 : n = 16 * (n / 16) + n % 16 := (Nat.div_add_mod _ _).symm
        calc n = 16 * (n / 16) + n % 16 := h2
          _ = 16 * (16 ^ k * (n / 16 / 16 ^ k) + n / 16 % 16 ^ k) + n % 16 := by rw [← h1]
          _ = 16 ^ (k + 1) * (n / 16 / 16 ^ k) + ((n / 16 % 16 ^ k) * 16 + n % 16) := by
                rw [Nat.pow_succ]; ring
      have hlt : (n / 16 % 16 ^ k) * 16 + n % 16 < 16 ^ (k + 1) := by
        have ha : n / 16 % 16 ^ k ≤ 16 ^ k - 1 :=
          Nat.le_sub_one_of_lt (Nat.mod_lt _ hM)
        have hb : n % 16 < 16 := Nat.mod_lt _ (by norm_num)
        have : (n / 16 % 16 ^ k) * 16 + n % 16 ≤ (16 ^ k - 1) * 16 + 15 := by
          have := Nat.mul_le_mul_right 16 ha
          omega
        have h16 : (16 ^ k - 1) * 16 + 15 < 16 ^ (k + 1) := by
          rw [Nat.pow_succ]
          have := hM
          omega
        omega
      conv_rhs => rw [hsplit]
      rw [Nat.mul_add_mod, Nat.mod_eq_of_lt hlt]

theorem filter_ne_dash_eq_self {l : List Char} (h : ∀ c ∈ l, c ≠ '-') :
    l.filter (fun c => c != '-') = l :=
  List.filter_eq_self.mpr (fun c hc => by simpa using h c hc)

theorem uuidUnstring_uuidToString (n : Nat) : uuidUnstring (uuidToString n) = n % 16 ^ 32 := by
  have hhex := toHexDigits_ne_dash 32 n
  have hseg : ∀ l : List Char, l.Sublist (toHexDigits n 32) →
      l.filter (fun c => c != '-') = l := fun l hsub =>
    filter_ne_dash_eq_self (fun c hc => hhex c (hsub.mem hc))
  have hdrop : ∀ i, ((toHexDigits n 32).drop i).Sublist (toHexDigits n 32) :=
    fun i => List.drop_sublist _ _
  have h8 := hseg _ (List.take_sublist 8 (toHexDigits n 32))
  have h9 := hseg _ ((List.take_sublist 4 _).trans (hdrop 8))
  have h14 := hseg _ ((List.take_sublist 4 _).trans (hdrop 12))
  have h19 := hseg _ ((List.take_sublist 4 _).trans (hdrop 16))
  have h24 := hseg _ (hdrop 20)
  unfold uuidUnstring uuidToString
  simp only [List.filter_append, List.filter_cons, bne_self_eq_false, Bool.false_eq_true,
    if_false, h8, h9, h14, h19, h24]
  have r16 : ((toHexDigits n 32).drop 16).take 4 ++ (toHexDigits n 32).drop 20 =
      (toHexDigits n 32).drop 16 := by
    have := List.take_append_drop 4 ((toHexDigits n 32).drop 16)
    rw [List.drop_drop] at this
    norm_num at this
    exact this
  have r12 : ((toHexDigits n 32).drop 12).take 4 ++ (toHexDigits n 32).drop 16 =
      (toHexDigits n 32).drop 12 := by
    have := List.take_append_drop 4 ((toHexDigits n 32).drop 12)
    rw [List.drop_drop] at this
    norm_num at this
    exact this
  have r8 : ((toHexDigits n 32).drop 8).take 4 ++ (toHexDigits n 32).drop 12 =
      (toHexDigits n 32).drop 8 := by
    have := List.take_append_drop 4 ((toHexDigits n 32).drop 8)
    rw [List.drop_drop] at this
    norm_num at this
    exact this
  have r0 : (toHexDigits n 32).take 8 ++ (toHexDigits n 32).drop 8 = toHexDigits n 32 :=
    List.take_append_drop _ _
  simp only [List.append_assoc]
  rw [r16, r12, r8, r0]
  exact fromHexDigits_toHexDigits 32 n

theorem uuidToString_inj {n m : Nat} (hn : n < 2 ^ 128) (hm : m < 2 ^ 128)
    (h : uuidToString n = uuidToString m) : n = m := by
  have := congrArg uuidUnstring h
  rw [uuidUnstring_uuidToString, uuidUnstring_uuidToString] at this
  have h1632 : (16 : Nat) ^ 32 = 2 ^ 128 := by norm_num
  rwa [h1632, Nat.mod_eq_of_lt hn, Nat.mod_eq_of_lt hm] at this

/-- C1: for every node type string `t` and signature string `s` (and every
configured administrative domain string), `get_uuid_for_node` computes the
node id as the three nested version-5 UUID derivations of the claim,
returned as the string form of the final UUID. -/
theorem claim_C1_nested_uuid5 (d t s : String) : get_uuid_for_node d t s = claimNodeId d t s := rfl

/-- C2: the Identity Assigner is pure and deterministic — two calls with
identical node type and identical signature, under the same administrative
domain, return the same id; the embedded function depends on no other
state. -/
theorem claim_C2_deterministic (d t1 s1 t2 s2 : String) (ht : t1 = t2) (hs : s1 = s2) :
    get_uuid_for_node d t1 s1 = get_uuid_for_node d t2 s2 := by rw [ht, hs]

theorem claim_C2_deterministic_witness :
    get_uuid_for_node "icdc.nci.nih.gov" "case" "CASE-001" =
      get_uuid_for_node "icdc.nci.nih.gov" "case" "CASE-001" :=
  claim_C2_deterministic "icdc.nci.nih.gov" "case" "CASE-001" "case" "CASE-001" rfl rfl

/-- C3 (counterexample): it is NOT the case that distinct signatures within a
type always receive distinct ids: the id space is the finite set of 128-bit
UUID strings while signatures range over the infinite type of strings, so by
the pigeonhole principle two distinct signatures of node type `"case"` under
the domain `"icdc.nci.nih.gov"` share an id. -/
theorem claim_C3_counterexample :
    ¬ ∀ (t s1 s2 : String), s1 ≠ s2 →
        get_uuid_for_node "icdc.nci.nih.gov" t s1 ≠ get_uuid_for_node "icdc.nci.nih.gov" t s2 := by
  intro hclaim
  obtain ⟨s1, s2, hne, heq⟩ := Finite.exists_ne_map_eq_of_infinite
    (fun s : String =>
      (⟨uuid5int (uuid5int (uuid5int UUID_NAMESPACE_URL "icdc.nci.nih.gov") "case") s,
        uuid5int_lt _ _⟩ : Fin (2 ^ 128)))
  have hval : uuid5int (uuid5int (uuid5int UUID_NAMESPACE_URL "icdc.nci.nih.gov") "case") s1 =
      uuid5int (uuid5int (uuid5int UUID_NAMESPACE_URL "icdc.nci.nih.gov") "case") s2 :=
    congrArg Fin.val heq
  exact hclaim "case" s1 s2 hne (congrArg uuidToString hval)

/-- C3 (amended): within a node type, two signatures receive the same id
exactly when their final derived 128-bit uuid5 values coincide; in
particular distinct signatures whose final uuid5 values differ receive
distinct ids, but unconditional collision-freedom is impossible because
infinitely many signatures map into the finite 128-bit id space. -/
theorem claim_C3_amended (d t s1 s2 : String) :
    get_uuid_for_node d t s1 = get_uuid_for_node d t s2 ↔
      uuid5int (uuid5int (uuid5int UUID_NAMESPACE_URL d) t) s1 =
        uuid5int (uuid5int (uuid5int UUID_NAMESPACE_URL d) t) s2 := by
  constructor
  · exact fun h => uuidToString_inj (uuid5int_lt _ _) (uuid5int_lt _ _) h
  · exact fun h => congrArg uuidToString h

theorem takeWhile_append_all {α : Type} (p : α → Bool) :
    ∀ (a : List α) (x : α) (b : List α), (∀ c ∈ a, p c = true) → p x = false →
      (a ++ x :: b).takeWhile p = a := by
  intro a
  induction a with
  | nil => intro x b _ hx; simp [List.takeWhile_cons, hx]
  | cons c cs ih =>
      intro x b hall hx
      have hc : p c = true := hall c (by simp)
      simp [List.takeWhile_cons, hc, ih x b (fun d hd => hall d (by simp [hd])) hx]

theorem dropWhile_append_all {α : Type} (p : α → Bool) :
    ∀ (a : List α) (x : α) (b : List α), (∀ c ∈ a, p c = true) → p x = false →
      (a ++ x :: b).dropWhile p = x :: b := by
  intro a
  induction a with
  | nil => intro x b _ hx; simp [List.dropWhile_cons, hx]
  | cons c cs ih =>
      intro x b hall hx
      have hc : p c = true := hall c (by simp)
      simp [List.dropWhile_cons, hc, ih x b (fun d hd => hall d (by simp [hd])) hx]

/-- C4: a header field name is classified as a parent pointer exactly when it
matches "word.word" — one or more word characters, exactly one dot, one or
more word characters; strings with no dot, several dots, an empty side of
the dot, or any non-word character are classified as plain properties. -/
theorem claim_C4_parent_pointer (s : String) :
    is_parent_pointer s = true ↔ claimWordDotWord s := by
  constructor
  · intro h
    unfold is_parent_pointer at h
    split at h
    · next b heq =>
        simp only [Bool.and_eq_true, Bool.not_eq_true'] at h
        obtain ⟨⟨hne, hbne⟩, hball⟩ := h
        refine ⟨s.data.takeWhile wordChar, b, ?_, ?_, ?_, ?_, ?_⟩
        · rw [← heq]
          exact (List.takeWhile_append_dropWhile (p := wordChar) (l := s.data)).symm
        · intro hnil; rw [hnil] at hne; simp at hne
        · intro hnil; rw [hnil] at hbne; simp at hbne
        · exact fun d hd => List.mem_takeWhile_imp hd
        · exact fun d hd => by
            have := List.all_eq_true.mp hball d
            simpa using this hd
    · exact absurd h (by simp)
  · rintro ⟨a, b, hsplit, hane, hbne, haall, hball⟩
    have hdot : wordChar '.' = false := by decide
    unfold is_parent_pointer
    rw [hsplit, dropWhile_append_all wordChar a '.' b haall hdot,
        takeWhile_append_all wordChar a '.' b haall hdot]
    simp only [Bool.and_eq_true, Bool.not_eq_true']
    refine ⟨⟨?_, ?_⟩, ?_⟩
    · cases a with
      | nil => exact absurd rfl hane
      | cons x xs => simp
    · cases b with
      | nil => exact absurd rfl hbne
      | cons x xs => simp
    · exact List.all_eq_true.mpr (fun d hd => by simpa using hball d (by simpa using hd))

theorem dropWhile_head_not {α : Type} (p : α → Bool) (l : List α) :
    ∀ c ∈ (l.dropWhile p).head?, p c = false := by
  induction l with
  | nil => simp [List.dropWhile]
  | cons x xs ih =>
      by_cases hx : p x = true
      · simpa [List.dropWhile_cons, hx] using ih
      · simp only [Bool.not_eq_true] at hx
        simp [List.dropWhile_cons, hx]

theorem removeTrailingSlash_eq_claim (u : String) :
    removeTrailingSlash u = claimDropAllTrailingSlashes u := by
  unfold removeTrailingSlash claimDropAllTrailingSlashes
  by_cases h : endsWithSlash u = true
  · rw [if_pos h]
  · rw [if_neg (by simp [h])]
    have hdw : u.data.reverse.dropWhile (fun c => c == '/') = u.data.reverse := by
      rcases hrev : u.data.reverse with _ | ⟨c, t⟩
      · rfl
      · have hlast : u.data.getLast? = some c := by
          rw [← List.head?_reverse, hrev]; rfl
        have hc : (c == '/') = false := by
          by_cases hcc : c = '/'
          · subst hcc
            unfold endsWithSlash at h
            rw [hlast] at h
            simp at h
          · exact beq_eq_false_iff_ne.mpr hcc
        rw [List.dropWhile_cons, hc]
        simp
    rw [hdw, List.reverse_reverse]

theorem endsWithSlash_claimDrop (u : String) :
    endsWithSlash (claimDropAllTrailingSlashes u) = false := by
  unfold endsWithSlash claimDropAllTrailingSlashes
  rcases hdw : u.data.reverse.dropWhile (fun c => c == '/') with _ | ⟨c, t⟩
  · simp
  · have hc := dropWhile_head_not (fun c => c == '/') u.data.reverse
    rw [hdw] at hc
    have hcne : (c == '/') = false := hc c rfl
    have hlast : ((c :: t).reverse : List Char).getLast? = some c := by
      rw [← List.head?_reverse]
      simp
    simp only [String.data]
    rw [hlast]
    have : c ≠ '/' := by simpa using hcne
    split
    · next heq => exact absurd (by injection heq) this
    · rfl

/-- C9: `removeTrailingSlash` returns its argument with every trailing `'/'`
removed (not just one), returns it unchanged when it does not end in `'/'`,
and is idempotent. -/
theorem claim_C9_removeTrailingSlash (u : String) :
    removeTrailingSlash u = claimDropAllTrailingSlashes u ∧
    (endsWithSlash u = false → removeTrailingSlash u = u) ∧
    removeTrailingSlash (removeTrailingSlash u) = removeTrailingSlash u := by
  refine ⟨removeTrailingSlash_eq_claim u, ?_, ?_⟩
  · intro h
    unfold removeTrailingSlash
    rw [if_neg (by simp [h])]
  · rw [removeTrailingSlash_eq_claim u]
    unfold removeTrailingSlash
    rw [if_neg (by simp [endsWithSlash_claimDrop u])]

theorem claim_C9_witness :
    endsWithSlash "bolt://x" = false ∧ removeTrailingSlash "bolt://x" = "bolt://x" := by
  have h := (claim_C9_removeTrailingSlash "bolt://x").2.1
  exact ⟨by decide, h (by decide)⟩

/-! ### Characterization of the phases of `loader_main` -/

theorem mainLoadPhase_trace (args : Args) (env : Env) (tr : List Effect) :
    (mainLoadPhase args env tr).trace =
      tr ++ [Effect.buildSchema] ++ (if args.dryRun then [] else [Effect.createDriver]) ++
      (if args.wipeDb = true ∧ confirm_wipe_db env.confirmInput = false then []
       else dataLoader_load args.dryRun args.wipeDb env.txtFiles ++
         (if args.dryRun then [] else [Effect.closeDriver])) := by
  unfold mainLoadPhase
  split_ifs <;> simp [List.append_assoc]

theorem mainLoadPhase_outcome (args : Args) (env : Env) (tr : List Effect) :
    (mainLoadPhase args env tr).outcome =
      if args.wipeDb = true ∧ confirm_wipe_db env.confirmInput = false then Outcome.exited 0
      else Outcome.completed := by
  unfold mainLoadPhase
  split_ifs <;> rfl

theorem mainAfterChecks_empty (args : Args) (env : Env) (tr : List Effect)
    (h : env.txtFiles.isEmpty = true) :
    mainAfterChecks args env tr = { trace := tr, outcome := Outcome.completed } := by
  unfold mainAfterChecks
  rw [if_pos h]

theorem mainAfterChecks_backup_fail (args : Args) (env : Env) (tr : List Effect)
    (h : env.txtFiles.isEmpty = false) (hnb : args.noBackup = false) (hdr : args.dryRun = false)
    (hbk : env.backupOk = false) :
    mainAfterChecks args env tr =
      { trace := tr ++ [Effect.backup], outcome := Outcome.exited 1 } := by
  unfold mainAfterChecks backup_neo4j
  simp [h, hnb, hdr, hbk]

theorem mainAfterChecks_backup_ok (args : Args) (env : Env) (tr : List Effect)
    (h : env.txtFiles.isEmpty = false) (hnb : args.noBackup = false) (hdr : args.dryRun = false)
    (hbk : env.backupOk = true) :
    mainAfterChecks args env tr = mainLoadPhase args env (tr ++ [Effect.backup]) := by
  unfold mainAfterChecks backup_neo4j
  simp [h, hnb, hdr, hbk]

theorem mainAfterChecks_no_backup (args : Args) (env : Env) (tr : List Effect)
    (h : env.txtFiles.isEmpty = false) (hj : args.noBackup = true ∨ args.dryRun = true) :
    mainAfterChecks args env tr = mainLoadPhase args env tr := by
  unfold mainAfterChecks
  rw [if_neg (by simp [h]), if_neg (by rcases hj with hj | hj <;> simp [hj])]

theorem mainChecks_cases (args : Args) (env : Env) (tr : List Effect) :
    mainChecks args env tr = { trace := tr, outcome := Outcome.exited 1 } ∨
      (check_schema_files args.schema env.isFile = true ∧
       mainChecks args env tr = mainAfterChecks args env tr) := by
  unfold mainChecks
  split_ifs with h1 h2 h3
  · exact Or.inl rfl
  · exact Or.inl rfl
  · exact Or.inl rfl
  · exact Or.inr ⟨by simpa using h3, rfl⟩

theorem mainS3Download_cases (args : Args) (env : Env) (tr : List Effect) :
    mainS3Download args env tr = { trace := tr, outcome := Outcome.exited 1 } ∨
      mainS3Download args env tr =
        { trace := tr ++ [Effect.s3Download], outcome := Outcome.exited 1 } ∨
      mainS3Download args env tr = mainChecks args env tr ∨
      mainS3Download args env tr = mainChecks args env (tr ++ [Effect.s3Download]) := by
  unfold mainS3Download
  split_ifs
  · exact Or.inl rfl
  · exact Or.inl rfl
  · exact Or.inr (Or.inl rfl)
  · exact Or.inr (Or.inr (Or.inr rfl))
  · exact Or.inr (Or.inr (Or.inl rfl))

/-- Every element added to the trace before the try-block of loader.py:78 is
a directory-creation or S3-download step; the run then either exits with
status 1 or, with the schema file check passed, proceeds into the try-block. -/
theorem loader_main_cases (args : Args) (env : Env) :
    ∃ pre : List Effect, (∀ e ∈ pre, e = Effect.makeDirs ∨ e = Effect.s3Download) ∧
      (loader_main args env = { trace := pre, outcome := Outcome.exited 1 } ∨
       (check_schema_files args.schema env.isFile = true ∧
        loader_main args env = mainAfterChecks args env pre)) := by
  have hstep : ∀ tr0 : List Effect, (∀ e ∈ tr0, e = Effect.makeDirs ∨ e = Effect.s3Download) →
      ∃ pre : List Effect, (∀ e ∈ pre, e = Effect.makeDirs ∨ e = Effect.s3Download) ∧
        (mainS3Download args env tr0 = { trace := pre, outcome := Outcome.exited 1 } ∨
         (check_schema_files args.schema env.isFile = true ∧
          mainS3Download args env tr0 = mainAfterChecks args env pre)) := by
    intro tr0 htr0
    have htr0' : ∀ e ∈ tr0 ++ [Effect.s3Download], e = Effect.makeDirs ∨ e = Effect.s3Download := by
      intro e he
      rcases List.mem_append.mp he with he | he
      · exact htr0 e he
      · simp at he
        exact Or.inr he
    rcases mainS3Download_cases args env tr0 with h | h | h | h
    · exact ⟨tr0, htr0, Or.inl h⟩
    · exact ⟨tr0 ++ [Effect.s3Download], htr0', Or.inl h⟩
    · rcases mainChecks_cases args env tr0 with h2 | ⟨hc, h2⟩
      · exact ⟨tr0, htr0, Or.inl (h.trans h2)⟩
      · exact ⟨tr0, htr0, Or.inr ⟨hc, h.trans h2⟩⟩
    · rcases mainChecks_cases args env (tr0 ++ [Effect.s3Download]) with h2 | ⟨hc, h2⟩
      · exact ⟨tr0 ++ [Effect.s3Download], htr0', Or.inl (h.trans h2)⟩
      · exact ⟨tr0 ++ [Effect.s3Download], htr0', Or.inr ⟨hc, h.trans h2⟩⟩
  have hmain : loader_main args env = { trace := [], outcome := Outcome.exited 1 } ∨
      loader_main args env = mainS3Download args env [] ∨
      loader_main args env = mainS3Download args env [Effect.makeDirs] := by
    unfold loader_main
    split_ifs
    · exact Or.inr (Or.inr rfl)
    · exact Or.inl rfl
    · exact Or.inr (Or.inl rfl)
  rcases hmain with h | h | h
  · exact ⟨[], by simp, Or.inl h⟩
  · obtain ⟨pre, hpre, hres⟩ := hstep [] (by simp)
    exact ⟨pre, hpre, by rw [h]; exact hres⟩
  · obtain ⟨pre, hpre, hres⟩ := hstep [Effect.makeDirs] (by simp)
    exact ⟨pre, hpre, by rw [h]; exact hres⟩

theorem occursBefore_of_not_mem (g : Effect) (es : List Effect) :
    ∀ l : List Effect, (∀ e ∈ l, e ∉ es) → occursBefore g es l = true := by
  intro l
  induction l with
  | nil => intro; rfl
  | cons e tr ih =>
      intro h
      unfold occursBefore
      split_ifs with h1 h2
      · rfl
      · exact absurd h2 (h e (by simp))
      · exact ih (fun x hx => h x (by simp [hx]))

theorem occursBefore_append (g : Effect) (es : List Effect) :
    ∀ (pre l : List Effect), (∀ e ∈ pre, e ∉ es) → occursBefore g es l = true →
      occursBefore g es (pre ++ l) = true := by
  intro pre
  induction pre with
  | nil => intro l _ hl; simpa using hl
  | cons e tr ih =>
      intro l h hl
      rw [List.cons_append]
      unfold occursBefore
      split_ifs with h1 h2
      · rfl
      · exact absurd h2 (h e (by simp))
      · exact ih l (fun x hx => h x (by simp [hx])) hl

theorem occursBefore_cons_self (g : Effect) (es : List Effect) (l : List Effect) :
    occursBefore g es (g :: l) = true := by
  unfold occursBefore
  rw [if_pos rfl]

/-- Where each element of a load-phase trace can come from. -/
theorem mainLoadPhase_mem (args : Args) (env : Env) (tr : List Effect) (e : Effect)
    (he : e ∈ (mainLoadPhase args env tr).trace) :
    e ∈ tr ∨ e = Effect.buildSchema ∨
    (args.dryRun = false ∧ (e = Effect.createDriver ∨ e = Effect.closeDriver)) ∨
    (¬(args.wipeDb = true ∧ confirm_wipe_db env.confirmInput = false) ∧
      e ∈ dataLoader_load args.dryRun args.wipeDb env.txtFiles) := by
  rw [mainLoadPhase_trace] at he
  simp only [List.mem_append, List.mem_singleton] at he
  rcases he with ((he | he) | he) | he
  · exact Or.inl he
  · exact Or.inr (Or.inl he)
  · by_cases hd : args.dryRun = true
    · rw [if_pos hd] at he
      simp at he
    · rw [if_neg hd] at he
      simp only [List.mem_singleton] at he
      exact Or.inr (Or.inr (Or.inl ⟨by simpa using hd, Or.inl he⟩))
  · by_cases hL : args.wipeDb = true ∧ confirm_wipe_db env.confirmInput = false
    · rw [if_pos hL] at he
      simp at he
    · rw [if_neg hL] at he
      rcases List.mem_append.mp he with he | he
      · exact Or.inr (Or.inr (Or.inr ⟨hL, he⟩))
      · by_cases hd : args.dryRun = true
        · rw [if_pos hd] at he
          simp at he
        · rw [if_neg hd] at he
          simp only [List.mem_singleton] at he
          exact Or.inr (Or.inr (Or.inl ⟨by simpa using hd, Or.inr he⟩))

/-- Where each element of a post-checks trace can come from. -/
theorem mainAfterChecks_mem (args : Args) (env : Env) (tr : List Effect) (e : Effect)
    (he : e ∈ (mainAfterChecks args env tr).trace) :
    e ∈ tr ∨ e = Effect.backup ∨ e = Effect.buildSchema ∨
    (args.dryRun = false ∧ (e = Effect.createDriver ∨ e = Effect.closeDriver)) ∨
    (¬(args.wipeDb = true ∧ confirm_wipe_db env.confirmInput = false) ∧
      e ∈ dataLoader_load args.dryRun args.wipeDb env.txtFiles) := by
  by_cases hemp : env.txtFiles.isEmpty = true
  · rw [mainAfterChecks_empty args env tr hemp] at he
    exact Or.inl he
  · have hemp' : env.txtFiles.isEmpty = false := by simpa using hemp
    by_cases hj : args.noBackup = false ∧ args.dryRun = false
    · cases hbk : env.backupOk
      · rw [mainAfterChecks_backup_fail args env tr hemp' hj.1 hj.2 hbk] at he
        simp only [List.mem_append, List.mem_singleton] at he
        rcases he with he | he
        · exact Or.inl he
        · exact Or.inr (Or.inl he)
      · rw [mainAfterChecks_backup_ok args env tr hemp' hj.1 hj.2 hbk] at he
        have h := mainLoadPhase_mem args env (tr ++ [Effect.backup]) e he
        simp only [List.mem_append, List.mem_singleton] at h
        tauto
    · have hj' : args.noBackup = true ∨ args.dryRun = true := by
        cases hnb : args.noBackup
        · cases hdr : args.dryRun
          · exact absurd ⟨hnb, hdr⟩ hj
          · exact Or.inr rfl
        · exact Or.inl rfl
      rw [mainAfterChecks_no_backup args env tr hemp' hj'] at he
      have h := mainLoadPhase_mem args env tr e he
      tauto

/-- Where each element of a whole-run trace can come from. -/
theorem loader_main_mem (args : Args) (env : Env) (e : Effect)
    (he : e ∈ (loader_main args env).trace) :
    e = Effect.makeDirs ∨ e = Effect.s3Download ∨ e = Effect.backup ∨ e = Effect.buildSchema ∨
    (args.dryRun = false ∧ (e = Effect.createDriver ∨ e = Effect.closeDriver)) ∨
    (¬(args.wipeDb = true ∧ confirm_wipe_db env.confirmInput = false) ∧
      e ∈ dataLoader_load args.dryRun args.wipeDb env.txtFiles) := by
  obtain ⟨pre, hpre, hres⟩ := loader_main_cases args env
  rcases hres with hres | ⟨-, hres⟩
  · rw [hres] at he
    rcases hpre e he with rfl | rfl
    · exact Or.inl rfl
    · exact Or.inr (Or.inl rfl)
  · rw [hres] at he
    rcases mainAfterChecks_mem args env pre e he with h | hrest
    · rcases hpre e h with rfl | rfl
      · exact Or.inl rfl
      · exact Or.inr (Or.inl rfl)
    · tauto

/-! ### Claims C5-C8 and C10: the loader's control flow -/

/-- C5: with the dry-run flag set, no database session is ever created (the
driver handle stays absent for the whole run) and no node or relationship
create, update or delete operation — the wipe included — is issued against
the store, regardless of the environment (in particular of how many
violations validation finds). -/
theorem claim_C5_dry_run (args : Args) (env : Env) (h : args.dryRun = true) :
    Effect.createDriver ∉ (loader_main args env).trace ∧
    Effect.storeOp ∉ (loader_main args env).trace ∧
    Effect.wipe ∉ (loader_main args env).trace := by
  have hload : dataLoader_load args.dryRun args.wipeDb env.txtFiles = [] := by
    rw [h]
    rfl
  refine ⟨?_, ?_, ?_⟩ <;>
  · intro hm
    rcases loader_main_mem args env _ hm with h' | h' | h' | h' | ⟨hd, h'⟩ | ⟨-, h'⟩
    · simp at h'
    · simp at h'
    · simp at h'
    · simp at h'
    · rw [h] at hd
      simp at hd
    · rw [hload] at h'
      simp at h'

/-- C6: with the wipe flag set, the load — and with it the destructive wipe —
proceeds only when the confirmation input, stripped and lowercased, is
exactly `"yes"`; for any other input neither the Load Engine nor the wipe is
ever reached. -/
theorem claim_C6_wipe_gate (args : Args) (env : Env) (hw : args.wipeDb = true) :
    ((Effect.wipe ∈ (loader_main args env).trace ∨
      Effect.loadEngine ∈ (loader_main args env).trace) →
        pyLower (pyStrip env.confirmInput) = "yes") ∧
    (pyLower (pyStrip env.confirmInput) ≠ "yes" →
      Effect.wipe ∉ (loader_main args env).trace ∧
      Effect.loadEngine ∉ (loader_main args env).trace) := by
  have hcw : confirm_wipe_db env.confirmInput = true ↔
      pyLower (pyStrip env.confirmInput) = "yes" := by
    unfold confirm_wipe_db
    exact beq_iff_eq
  have hgate : ∀ e : Effect, e = Effect.wipe ∨ e = Effect.loadEngine →
      e ∈ (loader_main args env).trace → confirm_wipe_db env.confirmInput = true := by
    intro e hwl hm
    rcases loader_main_mem args env _ hm with h' | h' | h' | h' | ⟨-, h'⟩ | ⟨hL, -⟩
    · rcases hwl with rfl | rfl <;> simp at h'
    · rcases hwl with rfl | rfl <;> simp at h'
    · rcases hwl with rfl | rfl <;> simp at h'
    · rcases hwl with rfl | rfl <;> simp at h'
    · rcases hwl with rfl | rfl <;> rcases h' with h' | h' <;> simp at h'
    · rcases hcf : confirm_wipe_db env.confirmInput with _ | _
      · exact absurd ⟨hw, hcf⟩ hL
      · rfl
  constructor
  · intro hm
    rcases hm with hm | hm
    · exact hcw.mp (hgate _ (Or.inl rfl) hm)
    · exact hcw.mp (hgate _ (Or.inr rfl) hm)
  · intro hne
    constructor
    · intro hm
      exact hne (hcw.mp (hgate _ (Or.inl rfl) hm))
    · intro hm
      exact hne (hcw.mp (hgate _ (Or.inr rfl) hm))

/-- C7: with input files present and neither `--no-backup` nor `--dry-run`,
the backup is attempted before the schema is built, the session is opened or
the Load Engine touches any file; a completed run has taken a backup; and a
failed backup aborts with status 1 without building the schema, opening a
session or loading anything. -/
theorem claim_C7_backup_guard (args : Args) (env : Env)
    (hfiles : env.txtFiles ≠ []) (hnb : args.noBackup = false) (hdr : args.dryRun = false) :
    occursBefore Effect.backup
        [Effect.buildSchema, Effect.createDriver, Effect.loadEngine, Effect.storeOp]
        (loader_main args env).trace = true ∧
    ((loader_main args env).outcome = Outcome.completed →
      Effect.backup ∈ (loader_main args env).trace) ∧
    (env.backupOk = false →
      (loader_main args env).outcome = Outcome.exited 1 ∧
      Effect.buildSchema ∉ (loader_main args env).trace ∧
      Effect.createDriver ∉ (loader_main args env).trace ∧
      Effect.loadEngine ∉ (loader_main args env).trace ∧
      Effect.storeOp ∉ (loader_main args env).trace) := by
  have hemp : env.txtFiles.isEmpty = false := by
    rcases h : env.txtFiles with _ | _
    · exact absurd h hfiles
    · rfl
  obtain ⟨pre, hpre, hres⟩ := loader_main_cases args env
  have hpre_not : ∀ e ∈ pre,
      e ∉ [Effect.buildSchema, Effect.createDriver, Effect.loadEngine, Effect.storeOp] := by
    intro e he
    rcases hpre e he with rfl | rfl <;> simp
  rcases hres with hres | ⟨-, hres⟩
  · rw [hres]
    refine ⟨occursBefore_of_not_mem _ _ pre hpre_not, ?_, ?_⟩
    · intro hco
      simp at hco
    · intro _
      refine ⟨rfl, ?_, ?_, ?_, ?_⟩ <;>
      · intro hm
        rcases hpre _ hm with h | h <;> simp at h
  · cases hbk : env.backupOk
    · rw [hres, mainAfterChecks_backup_fail args env pre hemp hnb hdr hbk]
      refine ⟨?_, ?_, ?_⟩
      · exact occursBefore_append _ _ pre [Effect.backup] hpre_not
          (occursBefore_cons_self _ _ _)
      · intro hco
        simp at hco
      · intro _
        refine ⟨rfl, ?_, ?_, ?_, ?_⟩ <;>
        · intro hm
          rcases List.mem_append.mp hm with h | h
          · rcases hpre _ h with h' | h' <;> simp at h'
          · simp at h
    · rw [hres, mainAfterChecks_backup_ok args env pre hemp hnb hdr hbk]
      refine ⟨?_, ?_, ?_⟩
      · rw [mainLoadPhase_trace]
        have hform : pre ++ [Effect.backup] ++ [Effect.buildSchema] ++
            (if args.dryRun then [] else [Effect.createDriver]) ++
            (if args.wipeDb = true ∧ confirm_wipe_db env.confirmInput = false then []
             else dataLoader_load args.dryRun args.wipeDb env.txtFiles ++
               (if args.dryRun then [] else [Effect.closeDriver])) =
            pre ++ (Effect.backup :: ([Effect.buildSchema] ++
              (if args.dryRun then [] else [Effect.createDriver]) ++
              (if args.wipeDb = true ∧ confirm_wipe_db env.confirmInput = false then []
               else dataLoader_load args.dryRun args.wipeDb env.txtFiles ++
                 (if args.dryRun then [] else [Effect.closeDriver])))) := by
          simp [List.append_assoc]
        rw [hform]
        exact occursBefore_append _ _ pre _ hpre_not (occursBefore_cons_self _ _ _)
      · intro _
        rw [mainLoadPhase_trace]
        simp
      · intro hbk'
        exact absurd hbk' (by simp)

theorem check_schema_files_eq_false (schemas : List String) (isFile : String → Bool)
    (hbad : schemas = [] ∨ ∃ f ∈ schemas, isFile f = false) :
    check_schema_files schemas isFile = false := by
  unfold check_schema_files
  rcases hbad with rfl | ⟨f, hf, hff⟩
  · simp
  · by_cases he : schemas.isEmpty = true
    · rw [if_pos he]
    · rw [if_neg he]
      cases hall : schemas.all isFile
      · rfl
      · have := List.all_eq_true.mp hall f hf
        rw [hff] at this
        exact absurd this (by simp)

/-- C8: with an empty schema list or a schema path that is not an existing
file, the schema check fails and the run exits with status 1 before any
backup is taken, any schema is parsed, any session is opened or any input
file is processed — nothing has been committed. -/
theorem claim_C8_schema_abort (args : Args) (env : Env)
    (hbad : args.schema = [] ∨ ∃ f ∈ args.schema, env.isFile f = false) :
    check_schema_files args.schema env.isFile = false ∧
    (loader_main args env).outcome = Outcome.exited 1 ∧
    Effect.backup ∉ (loader_main args env).trace ∧
    Effect.buildSchema ∉ (loader_main args env).trace ∧
    Effect.createDriver ∉ (loader_main args env).trace ∧
    Effect.loadEngine ∉ (loader_main args env).trace ∧
    Effect.storeOp ∉ (loader_main args env).trace ∧
    Effect.wipe ∉ (loader_main args env).trace := by
  have hc := check_schema_files_eq_false args.schema env.isFile hbad
  obtain ⟨pre, hpre, hres⟩ := loader_main_cases args env
  rcases hres with hres | ⟨hc', -⟩
  · rw [hres]
    refine ⟨hc, rfl, ?_, ?_, ?_, ?_, ?_, ?_⟩ <;>
    · intro hm
      rcases hpre _ hm with h | h <;> simp at h
  · rw [hc] at hc'
    exact absurd hc' (by simp)

theorem loader_main_clean (args : Args) (env : Env)
    (hs3 : args.s3Folder = none) (hdir : env.isDir = true)
    (hpw : args.password.isNone = false ∨ env.pswdEnv.isNone = false)
    (hsch : check_schema_files args.schema env.isFile = true) :
    loader_main args env = mainAfterChecks args env [] := by
  unfold loader_main mainS3Download mainChecks
  rcases hpw with hpw | hpw <;> simp [hs3, hdir, hsch, hpw]

/-- C10 (amended): when the preliminary checks pass — no S3 download is
requested, the data directory exists, a password is available, the schema
file check succeeds — and the directory holds no `*.txt` file, the run takes
no backup, parses no schema, opens no session, issues no store operation and
changes no file, and ends normally. -/
theorem claim_C10_amended (args : Args) (env : Env)
    (hs3 : args.s3Folder = none) (hdir : env.isDir = true)
    (hpw : args.password.isNone = false ∨ env.pswdEnv.isNone = false)
    (hsch : check_schema_files args.schema env.isFile = true)
    (hempty : env.txtFiles = []) :
    (loader_main args env).trace = [] ∧ (loader_main args env).outcome = Outcome.completed := by
  rw [loader_main_clean args env hs3 hdir hpw hsch,
      mainAfterChecks_empty args env [] (by simp [hempty])]
  exact ⟨rfl, rfl⟩

/-- C10 (counterexample): an invocation whose data directory holds no `*.txt`
file but whose schema argument names a path that is not a file: the run does
not end normally — it exits with status 1 — so the claim fails as stated. -/
theorem claim_C10_counterexample :
    ¬ ∀ (args : Args) (env : Env), env.txtFiles = [] →
        ((loader_main args env).trace = [] ∧
         (loader_main args env).outcome = Outcome.completed) := by
  intro hclaim
  have h := hclaim wArgs { wEnv with txtFiles := [], isFile := fun _ => false } rfl
  have hout : (loader_main wArgs
      { wEnv with txtFiles := [], isFile := fun _ => false }).outcome =
      Outcome.exited 1 := by decide
  rw [hout] at h
  exact absurd h.2 (by simp)

theorem claim_C5_dry_run_witness :
    ({ wArgs with dryRun := true } : Args).dryRun = true ∧
    (Effect.createDriver ∉ (loader_main { wArgs with dryRun := true } wEnv).trace ∧
     Effect.storeOp ∉ (loader_main { wArgs with dryRun := true } wEnv).trace ∧
     Effect.wipe ∉ (loader_main { wArgs with dryRun := true } wEnv).trace) :=
  ⟨rfl, claim_C5_dry_run { wArgs with dryRun := true } wEnv rfl⟩

theorem claim_C6_wipe_gate_witness :
    ({ wArgs with wipeDb := true } : Args).wipeDb = true ∧
    (((Effect.wipe ∈ (loader_main { wArgs with wipeDb := true }
          { wEnv with confirmInput := "no" }).trace ∨
       Effect.loadEngine ∈ (loader_main { wArgs with wipeDb := true }
          { wEnv with confirmInput := "no" }).trace) →
        pyLower (pyStrip ({ wEnv with confirmInput := "no" } : Env).confirmInput) = "yes") ∧
     (pyLower (pyStrip ({ wEnv with confirmInput := "no" } : Env).confirmInput) ≠ "yes" →
       Effect.wipe ∉ (loader_main { wArgs with wipeDb := true }
          { wEnv with confirmInput := "no" }).trace ∧
       Effect.loadEngine ∉ (loader_main { wArgs with wipeDb := true }
          { wEnv with confirmInput := "no" }).trace)) :=
  ⟨rfl, claim_C6_wipe_gate { wArgs with wipeDb := true } { wEnv with confirmInput := "no" } rfl⟩

theorem claim_C7_backup_guard_witness :
    (({ wEnv with backupOk := false } : Env).txtFiles ≠ [] ∧
     wArgs.noBackup = false ∧ wArgs.dryRun = false) ∧
    (occursBefore Effect.backup
        [Effect.buildSchema, Effect.createDriver, Effect.loadEngine, Effect.storeOp]
        (loader_main wArgs { wEnv with backupOk := false }).trace = true ∧
     ((loader_main wArgs { wEnv with backupOk := false }).outcome = Outcome.completed →
       Effect.backup ∈ (loader_main wArgs { wEnv with backupOk := false }).trace) ∧
     (({ wEnv with backupOk := false } : Env).backupOk = false →
       (loader_main wArgs { wEnv with backupOk := false }).outcome = Outcome.exited 1 ∧
       Effect.buildSchema ∉ (loader_main wArgs { wEnv with backupOk := false }).trace ∧
       Effect.createDriver ∉ (loader_main wArgs { wEnv with backupOk := false }).trace ∧
       Effect.loadEngine ∉ (loader_main wArgs { wEnv with backupOk := false }).trace ∧
       Effect.storeOp ∉ (loader_main wArgs { wEnv with backupOk := false }).trace)) :=
  ⟨⟨by simp [wEnv], rfl, rfl⟩,
   claim_C7_backup_guard wArgs { wEnv with backupOk := false } (by simp [wEnv]) rfl rfl⟩

theorem claim_C8_schema_abort_witness :
    (({ wArgs with schema := [] } : Args).schema = [] ∨
      ∃ f ∈ ({ wArgs with schema := [] } : Args).schema, wEnv.isFile f = false) ∧
    (check_schema_files ({ wArgs with schema := [] } : Args).schema wEnv.isFile = false ∧
     (loader_main { wArgs with schema := [] } wEnv).outcome = Outcome.exited 1 ∧
     Effect.backup ∉ (loader_main { wArgs with schema := [] } wEnv).trace ∧
     Effect.buildSchema ∉ (loader_main { wArgs with schema := [] } wEnv).trace ∧
     Effect.createDriver ∉ (loader_main { wArgs with schema := [] } wEnv).trace ∧
     Effect.loadEngine ∉ (loader_main { wArgs with schema := [] } wEnv).trace ∧
     Effect.storeOp ∉ (loader_main { wArgs with schema := [] } wEnv).trace ∧
     Effect.wipe ∉ (loader_main { wArgs with schema := [] } wEnv).trace) :=
  ⟨Or.inl rfl, claim_C8_schema_abort { wArgs with schema := [] } wEnv (Or.inl rfl)⟩

theorem claim_C10_amended_witness :
    (wArgs.s3Folder = none ∧ ({ wEnv with txtFiles := [] } : Env).isDir = true ∧
     (wArgs.password.isNone = false ∨ ({ wEnv with txtFiles := [] } : Env).pswdEnv.isNone = false) ∧
     check_schema_files wArgs.schema ({ wEnv with txtFiles := [] } : Env).isFile = true ∧
     ({ wEnv with txtFiles := [] } : Env).txtFiles = []) ∧
    ((loader_main wArgs { wEnv with txtFiles := [] }).trace = [] ∧
     (loader_main wArgs { wEnv with txtFiles := [] }).outcome = Outcome.completed) :=
  ⟨⟨rfl, rfl, Or.inl rfl, by decide, rfl⟩,
   claim_C10_amended wArgs { wEnv with txtFiles := [] } rfl rfl (Or.inl rfl) (by decide) rfl⟩
